import Mathlib

/-!
Shallow embedding of the Cloudflare Worker request handler of the
Commit451/mirror repository (the hardened worker: `sanitizePath`,
`addSecurityHeaders`, `secureRedirect`, `serveR2Object`, `serveFile`,
`generateDirectoryListing`, `generateHTML`, `fetch`), together with
theorems settling the specification claims about it.

JavaScript strings are modelled as Lean `String` (lists of characters);
the JS string primitives used by the worker (`startsWith`, `endsWith`,
`includes`, `slice(1)`, `split`, `toLowerCase`, ...) are given explicit
character-list definitions below.  The R2 bucket is modelled as a pair of
functions: the key-to-object map backing `get`/`head`, and the
prefix-to-listing map backing `list({prefix, delimiter: '/'})`.
-/

namespace Mirror

/-! ## JS string primitives -/

/-- JS `s.startsWith(p)`. -/
def jsStartsWith (s p : String) : Bool := p.data.isPrefixOf s.data

/-- JS `s.endsWith(p)`. -/
def jsEndsWith (s p : String) : Bool := p.data.isSuffixOf s.data

/-- JS `s.includes(sub)` (substring containment). -/
def jsIncludes (s sub : String) : Bool :=
  s.data.tails.any (fun t => sub.data.isPrefixOf t)

/-- JS `s.slice(1)`: drop the first character. -/
def jsDrop1 (s : String) : String := ⟨s.data.drop 1⟩

/-- Split a character list at every occurrence of `sep` (JS `String.split`). -/
def splitChar (sep : Char) : List Char → List (List Char)
  | [] => [[]]
  | c :: rest =>
    let r := splitChar sep rest
    if c = sep then [] :: r
    else
      match r with
      | [] => [[c]]
      | h :: t => (c :: h) :: t

/-- JS `s.split(sep)` for a one-character separator. -/
def jsSplit (s : String) (sep : Char) : List String :=
  (splitChar sep s.data).map (fun l => ⟨l⟩)

/-- JS `s.toLowerCase()` (character-wise, sufficient for the ASCII names here). -/
def lowerStr (s : String) : String := ⟨s.data.map Char.toLower⟩

/-! ## Percent decoding (model of the JS builtin `decodeURIComponent`) -/

/-- Value of a hexadecimal digit character, if any (code points 48-57 are
`0`-`9`, 65-70 are `A`-`F`, 97-102 are `a`-`f`). -/
def hexDigit (c : Char) : Option Nat :=
  let n := c.toNat
  if 48 ≤ n ∧ n ≤ 57 then some (n - 48)
  else if 65 ≤ n ∧ n ≤ 70 then some (n - 55)
  else if 97 ≤ n ∧ n ≤ 102 then some (n - 87)
  else none

/-- Modelled from the spec: the ECMAScript builtin `decodeURIComponent`
(the worker's only use of it is inside `sanitizePath`).  Each `%XY` escape
contributes one byte; a `%` followed by fewer than two characters or by
non-hex characters fails, and multi-byte UTF-8 sequences must be
complete, well formed (no overlong forms, no surrogates, max `U+10FFFF`)
and wholly percent-escaped, otherwise decoding fails, as the builtin
throws `URIError`.  Unescaped characters pass through unchanged. -/
def percentDecode : List Char → Option (List Char)
  | [] => some []
  | '%' :: c1 :: c2 :: rest =>
    match hexDigit c1, hexDigit c2 with
    | some h1, some h2 =>
      let b := 16 * h1 + h2
      if b < 0x80 then
        (percentDecode rest).map (fun tail => Char.ofNat b :: tail)
      else if 0xC2 ≤ b ∧ b ≤ 0xDF then
        match rest with
        | '%' :: d1 :: d2 :: rest2 =>
          match hexDigit d1, hexDigit d2 with
          | some g1, some g2 =>
            let b2 := 16 * g1 + g2
            if 0x80 ≤ b2 ∧ b2 ≤ 0xBF then
              (percentDecode rest2).map
                (fun tail => Char.ofNat ((b - 0xC0) * 64 + (b2 - 0x80)) :: tail)
            else none
          | _, _ => none
        | _ => none
      else if 0xE0 ≤ b ∧ b ≤ 0xEF then
        match rest with
        | '%' :: d1 :: d2 :: '%' :: e1 :: e2 :: rest2 =>
          match hexDigit d1, hexDigit d2, hexDigit e1, hexDigit e2 with
          | some g1, some g2, some g3, some g4 =>
            let b2 := 16 * g1 + g2
            let b3 := 16 * g3 + g4
            if 0x80 ≤ b2 ∧ b2 ≤ 0xBF ∧ 0x80 ≤ b3 ∧ b3 ≤ 0xBF then
              let cp := (b - 0xE0) * 4096 + (b2 - 0x80) * 64 + (b3 - 0x80)
              if 0x800 ≤ cp ∧ ¬ (0xD800 ≤ cp ∧ cp ≤ 0xDFFF) then
                (percentDecode rest2).map (fun tail => Char.ofNat cp :: tail)
              else none
            else none
          | _, _, _, _ => none
        | _ => none
      else if 0xF0 ≤ b ∧ b ≤ 0xF4 then
        match rest with
        | '%' :: d1 :: d2 :: '%' :: e1 :: e2 :: '%' :: f1 :: f2 :: rest2 =>
          match hexDigit d1, hexDigit d2, hexDigit e1, hexDigit e2,
                hexDigit f1, hexDigit f2 with
          | some g1, some g2, some g3, some g4, some g5, some g6 =>
            let b2 := 16 * g1 + g2
            let b3 := 16 * g3 + g4
            let b4 := 16 * g5 + g6
            if 0x80 ≤ b2 ∧ b2 ≤ 0xBF ∧ 0x80 ≤ b3 ∧ b3 ≤ 0xBF ∧
               0x80 ≤ b4 ∧ b4 ≤ 0xBF then
              let cp := (b - 0xF0) * 262144 + (b2 - 0x80) * 4096 +
                        (b3 - 0x80) * 64 + (b4 - 0x80)
              if 0x10000 ≤ cp ∧ cp ≤ 0x10FFFF then
                (percentDecode rest2).map (fun tail => Char.ofNat cp :: tail)
              else none
            else none
          | _, _, _, _, _, _ => none
        | _ => none
      else none
    | _, _ => none
  | '%' :: _ => none
  | c :: rest => (percentDecode rest).map (fun tail => c :: tail)

/-- `decodeURIComponent` lifted to `String`. -/
def decodeURIComponent (s : String) : Option String :=
  (percentDecode s.data).map (fun l => ⟨l⟩)

/-! ## sanitizePath -/

/-- Source: `sanitizePath(rawPath)` — percent-decode, then reject null
bytes, backslashes and any `/`-delimited `..` segment. -/
def sanitizePath (rawPath : String) : Option String :=
  match decodeURIComponent rawPath with
  | none => none
  | some path =>
    if path.data.contains '\x00' || path.data.contains '\\' then none
    else if (jsSplit path '/').any (fun segment => segment == "..") then none
    else some path

/-! ## Responses and headers -/

/-- An HTTP response: status, header list, optional body.
(`Response(null, ...)` has body `none`.) -/
structure Response where
  status : Nat
  headers : List (String × String)
  body : Option String
  deriving DecidableEq, Repr

/-- Header-name equality is case-insensitive (the `Headers` class
normalizes names). -/
def headerNameEq (a b : String) : Bool := lowerStr a == lowerStr b

/-- `Headers.set(k, v)`: replace any existing entry named `k`
(case-insensitively) with the single entry `(k, v)`. -/
def setHeader (hs : List (String × String)) (k v : String) :
    List (String × String) :=
  hs.filter (fun p => !(headerNameEq p.1 k)) ++ [(k, v)]

/-- `Headers.get(k)`: first entry whose name matches case-insensitively. -/
def getHeader (hs : List (String × String)) (k : String) : Option String :=
  (hs.find? (fun p => headerNameEq p.1 k)).map (fun p => p.2)

/-- Source: `SECURITY_HEADERS` — security headers applied to all responses. -/
def SECURITY_HEADERS : List (String × String) :=
  [("X-Content-Type-Options", "nosniff"),
   ("X-Frame-Options", "DENY"),
   ("Referrer-Policy", "no-referrer")]

/-- Source: `HTML_CSP` — CSP for HTML pages only. -/
def HTML_CSP : String :=
  "default-src \x27self\x27; style-src \x27self\x27 \x27unsafe-inline\x27; img-src \x27self\x27 data:; script-src \x27self\x27"

/-- Source: `addSecurityHeaders(response, isHtml = false)`. -/
def addSecurityHeaders (response : Response) (isHtml : Bool) : Response :=
  let headers := SECURITY_HEADERS.foldl (fun hs p => setHeader hs p.1 p.2)
    response.headers
  let headers := if isHtml then setHeader headers "Content-Security-Policy" HTML_CSP
    else headers
  { status := response.status, headers := headers, body := response.body }

/-- Source: `secureRedirect(url, status = 301)` (only ever called with the
default 301 status). -/
def secureRedirect (url : String) : Response :=
  addSecurityHeaders { status := 301, headers := [("Location", url)], body := none }
    false

/-! ## The R2 bucket model -/

/-- An object in the store, as the worker observes it: key, size, etag,
upload timestamp (modelled by its ISO-8601 string) and body. -/
structure R2ObjectInfo where
  key : String
  size : Nat
  etag : String
  uploaded : String
  body : String
  deriving DecidableEq, Repr

/-- Result of `BUCKET.list({prefix, delimiter: '/'})`. -/
structure ListResult where
  delimitedPrefixes : List String
  objects : List R2ObjectInfo
  deriving DecidableEq, Repr

/-- The bucket capability: `objects` backs `get`/`head` (a `head` returns
the same metadata as a `get`, without the body), `listing` backs
`list({prefix, delimiter: '/'})`. -/
structure Bucket where
  objects : String → Option R2ObjectInfo
  listing : String → ListResult

/-! ## Content types and routing predicates -/

/-- Source: the `types` record in `getContentType`. -/
def mimeTypes : List (String × String) :=
  [("html", "text/html; charset=utf-8"),
   ("css", "text/css; charset=utf-8"),
   ("js", "application/javascript; charset=utf-8"),
   ("json", "application/json"),
   ("svg", "image/svg+xml"),
   ("png", "image/png"),
   ("jpg", "image/jpeg"),
   ("jpeg", "image/jpeg"),
   ("gif", "image/gif"),
   ("ico", "image/x-icon"),
   ("zip", "application/zip"),
   ("gz", "application/gzip"),
   ("tar", "application/x-tar"),
   ("pdf", "application/pdf"),
   ("txt", "text/plain; charset=utf-8"),
   ("xml", "application/xml")]

/-- Source: `getContentType(path)` — lowercased text after the last dot,
looked up in the table, defaulting to a generic binary type. -/
def getContentType (path : String) : String :=
  let ext := lowerStr ((jsSplit path '.').getLastD "")
  match mimeTypes.find? (fun p => p.1 == ext) with
  | some p => p.2
  | none => "application/octet-stream"

/-- ASCII letters and digits, the character class of `FILE_EXTENSIONS`. -/
def isAsciiAlphanum (c : Char) : Bool :=
  ('a' ≤ c && c ≤ 'z') || ('A' ≤ c && c ≤ 'Z') || ('0' ≤ c && c ≤ '9')

/-- Source: `FILE_EXTENSIONS.test(path)` for `/\.[a-zA-Z0-9]+$/`: the path
ends in a dot followed by one or more ASCII alphanumerics. -/
def testFileExtension (path : String) : Bool :=
  let rev := path.data.reverse
  let ext := rev.takeWhile isAsciiAlphanum
  !ext.isEmpty && ((rev.drop ext.length).head? == some '.')

/-- Source: `SPA_ROUTES` — SPA routes that should serve index.html. -/
def SPA_ROUTES : List String := ["/", "/index.html"]

/-- Source: the repeated expression
`path.startsWith('/') ? path.slice(1) : path` deriving a store key. -/
def storeKey (path : String) : String :=
  if jsStartsWith path "/" then jsDrop1 path else path

/-- Source: the directory-listing branch's
`path === '/' ? '' : path.slice(1)`. -/
def dirPref (path : String) : String :=
  if path == "/" then "" else jsDrop1 path

/-! ## Serving objects -/

/-- Source: `serveR2Object(env, key, contentType, cacheControl, isHead)`:
`none` models the `null` return on a store miss. -/
def serveR2Object (env : Bucket) (key contentType cacheControl : String)
    (isHead : Bool) : Option Response :=
  if isHead then
    match env.objects key with
    | none => none
    | some head =>
      some { status := 200,
             headers := [("Content-Type", contentType),
                         ("Content-Length", toString head.size),
                         ("ETag", head.etag),
                         ("Cache-Control", cacheControl)],
             body := none }
  else
    match env.objects key with
    | none => none
    | some file =>
      some { status := 200,
             headers := [("Content-Type", contentType),
                         ("Content-Length", toString file.size),
                         ("ETag", file.etag),
                         ("Cache-Control", cacheControl)],
             body := some file.body }

/-- Source: `serveFile(env, key, contentType, isHead)` (the shell branch). -/
def serveFile (env : Bucket) (key contentType : String) (isHead : Bool) :
    Response :=
  if isHead then
    match env.objects key with
    | none => { status := 404, headers := [], body := some "Not Found" }
    | some head =>
      { status := 200,
        headers := [("Content-Type", contentType),
                    ("Content-Length", toString head.size),
                    ("Cache-Control", "public, max-age=300")],
        body := none }
  else
    match env.objects key with
    | none => { status := 404, headers := [], body := some "Not Found" }
    | some file =>
      { status := 200,
        headers := [("Content-Type", contentType),
                    ("Cache-Control", "public, max-age=300")],
        body := some file.body }

/-! ## Directory listings -/

/-- Replace every occurrence of the character `c` by the string `rep`
(one JS `String.replace` pass with a global single-character pattern). -/
def replaceAllChar (c : Char) (rep : List Char) : List Char → List Char
  | [] => []
  | x :: xs => (if x = c then rep else [x]) ++ replaceAllChar c rep xs

/-- Source: `escapeHtml(str)` — the five sequential global replacements.
(The composition order matters only in that `&` is escaped first; no later
replacement introduces a character handled earlier.) -/
def escapeHtml (str : String) : String :=
  ⟨replaceAllChar '\x27' "&#039;".data
    (replaceAllChar '"' "&quot;".data
      (replaceAllChar '>' "&gt;".data
        (replaceAllChar '<' "&lt;".data
          (replaceAllChar '&' "&amp;".data str.data))))⟩

/-- Source: the `units` array of `formatSize`. -/
def sizeUnits : List String := ["B", "KB", "MB", "GB", "TB"]

/-- Source: `formatSize(bytes)`.  The JS code computes
`Math.floor(Math.log(bytes) / Math.log(1024))` and
`(bytes / 1024**i).toFixed(i > 0 ? 1 : 0)` in floating point; this model
uses exact natural arithmetic (`Nat.log` and round-half-up to one decimal),
which agrees except for float rounding at the margins. -/
def formatSize (bytes : Nat) : String :=
  if bytes == 0 then "0 B"
  else
    let i := Nat.log 1024 bytes
    let unit := sizeUnits.getD i ""
    if i == 0 then toString bytes ++ " " ++ unit
    else
      let scaled10 := (bytes * 10 * 2 + 1024 ^ i) / (2 * 1024 ^ i)
      toString (scaled10 / 10) ++ "." ++ toString (scaled10 % 10) ++ " " ++ unit

/-- Replace the first occurrence of character `c` by `r`
(JS `String.replace` with a string pattern). -/
def replaceFirstChar (c r : Char) : List Char → List Char
  | [] => []
  | x :: xs => if x = c then r :: xs else x :: replaceFirstChar c r xs

/-- Source: `formatDate(date)` — the `Date` is modelled by its
`toISOString()` string; the code keeps the first 16 characters and turns
the `T` into a space. -/
def formatDate (isoDate : String) : String :=
  ⟨replaceFirstChar 'T' ' ' (isoDate.data.take 16)⟩

/-- One past the index of the last `'/'` in `l` (`lastIndexOf('/') + 1`,
which is `0` when there is no slash). -/
def lastSlashEnd (l : List Char) : Nat :=
  match l.reverse.findIdx? (fun c => c == '/') with
  | none => 0
  | some i => l.length - i

/-- Source: the common-prefix loop body
`prefix.slice(prefix.slice(0, -1).lastIndexOf('/') + 1)` — the name pushed
for a returned common-prefix entry. -/
def dirNameOf (p : String) : String :=
  ⟨p.data.drop (lastSlashEnd p.data.dropLast)⟩

/-- The `directories` array built by `generateDirectoryListing` (before
sorting). -/
def listingDirs (listed : ListResult) : List String :=
  listed.delimitedPrefixes.map dirNameOf

/-- A row of the `files` array: name, size, modified. -/
structure FileEntry where
  name : String
  size : Nat
  modified : String
  deriving DecidableEq, Repr

/-- The `files` array built by `generateDirectoryListing` (before
sorting): skip the directory-marker object, strip the queried prefix from
the key, skip entries in subdirectories. -/
def listingFiles (pref : String) (objects : List R2ObjectInfo) :
    List FileEntry :=
  objects.filterMap (fun object =>
    if object.key == pref then none
    else
      let name : String := ⟨object.key.data.drop pref.data.length⟩
      if name.data.contains '/' then none
      else some { name := name, size := object.size, modified := object.uploaded })

/-- Lexicographic code-point `≤` on character lists, the order underlying
the model of `localeCompare` (the names compared here are ASCII, for which
the default locale collation agrees with code-point order up to case). -/
def charListLe : List Char → List Char → Bool
  | [], _ => true
  | _ :: _, [] => false
  | a :: as, b :: bs =>
    if a.toNat < b.toNat then true
    else if b.toNat < a.toNat then false
    else charListLe as bs

/-- The comparator `(a, b) => b.toLowerCase().localeCompare(a.toLowerCase())`
as an `≤`-style switch: `a` may come before `b` exactly when the comparator
is `≤ 0`, i.e. when `b.toLowerCase() ≤ a.toLowerCase()`. -/
def dirCompareDesc (a b : String) : Bool :=
  charListLe (lowerStr b).data (lowerStr a).data

/-- The comparator
`(a, b) => b.name.toLowerCase().localeCompare(a.name.toLowerCase())`. -/
def fileCompareDesc (a b : FileEntry) : Bool :=
  charListLe (lowerStr b.name).data (lowerStr a.name).data

/-- Insert into a sorted list according to the boolean switch `le`. -/
def insertLe {α : Type} (le : α → α → Bool) (x : α) : List α → List α
  | [] => [x]
  | y :: ys => if le x y then x :: y :: ys else y :: insertLe le x ys

/-- `Array.prototype.sort(cmp)`, modelled as a stable insertion sort: the
ECMAScript specification promises exactly that the result is sorted
according to the (consistent) comparator. -/
def sortLe {α : Type} (le : α → α → Bool) (l : List α) : List α :=
  l.foldr (insertLe le) []

/-! ### The HTML template of `generateHTML`, split at its interpolations -/

/-- Parent-row template before `${escapeHtml(parentPath)}`. -/
def PARENT_ROW_A : String := "\n      <tr>\n        <td class=\"icon\">&#x1F4C1;</td>\n        <td class=\"name\"><a href=\""

/-- Parent-row template after `${escapeHtml(parentPath)}`. -/
def PARENT_ROW_B : String := "\">..</a></td>\n        <td class=\"size\">-</td>\n        <td class=\"modified\">-</td>\n      </tr>"

/-- Directory-row template before `${safePath}${safeDir}`. -/
def DIR_ROW_A : String := "\n      <tr>\n        <td class=\"icon\">&#x1F4C1;</td>\n        <td class=\"name\"><a href=\""

/-- Directory-row template between the href and the link text. -/
def DIR_ROW_B : String := "\">"

/-- Directory-row template after the link text. -/
def DIR_ROW_C : String := "</a></td>\n        <td class=\"size\">-</td>\n        <td class=\"modified\">-</td>\n      </tr>"

/-- File-row template before `${safePath}${safeName}`. -/
def FILE_ROW_A : String := "\n      <tr>\n        <td class=\"icon\">&#x1F4C4;</td>\n        <td class=\"name\"><a href=\""

/-- File-row template between the href and the link text. -/
def FILE_ROW_B : String := "\">"

/-- File-row template between the link text and `${formatSize(file.size)}`. -/
def FILE_ROW_C : String := "</a></td>\n        <td class=\"size\">"

/-- File-row template between the size and `${formatDate(file.modified)}`. -/
def FILE_ROW_D : String := "</td>\n        <td class=\"modified\">"

/-- File-row template tail. -/
def FILE_ROW_E : String := "</td>\n      </tr>"

/-- Page template up to the `<title>` interpolation of `${safePath}`.
Literal braces and apostrophes of the source template are written with
character escapes. -/
def PAGE_A : String := "<!DOCTYPE html>\n<html lang=\"en\">\n<head>\n  <meta charset=\"UTF-8\">\n  <meta name=\"viewport\" content=\"width=device-width, initial-scale=1.0\">\n  <link rel=\"icon\" type=\"image/png\" href=\"/favicon.png\">\n  <title>Index of "

/-- Page template from after the `<title>` interpolation up to the `<h1>`
interpolation of `${safePath}` (the entire `<style>` block). -/
def PAGE_B : String := "</title>\n  <style>\n    :root \x7b\n      --bg: #0a0a0a;\n      --fg: #e5e5e5;\n      --accent: #ff2525;\n      --border: #262626;\n      --hover: #171717;\n    \x7d\n    * \x7b box-sizing: border-box; \x7d\n    body \x7b\n      font-family: ui-monospace, \x27Cascadia Code\x27, \x27Source Code Pro\x27, Menlo, Consolas, monospace;\n      background: var(--bg);\n      color: var(--fg);\n      margin: 0;\n      padding: 2rem;\n      line-height: 1.6;\n    \x7d\n    .container \x7b\n      max-width: 900px;\n      margin: 0 auto;\n    \x7d\n    h1 \x7b\n      font-size: 1.25rem;\n      font-weight: 500;\n      margin: 0 0 1.5rem 0;\n      padding-bottom: 1rem;\n      border-bottom: 1px solid var(--border);\n    \x7d\n    h1 a \x7b\n      color: var(--accent);\n      text-decoration: none;\n    \x7d\n    h1 a:hover \x7b\n      text-decoration: underline;\n    \x7d\n    table \x7b\n      width: 100%;\n      border-collapse: collapse;\n      font-size: 0.9rem;\n    \x7d\n    th \x7b\n      text-align: left;\n      padding: 0.5rem;\n      border-bottom: 1px solid var(--border);\n      font-weight: 500;\n      color: #a3a3a3;\n    \x7d\n    td \x7b\n      padding: 0.5rem;\n      border-bottom: 1px solid var(--border);\n    \x7d\n    tr:hover \x7b\n      background: var(--hover);\n    \x7d\n    .icon \x7b width: 30px; \x7d\n    .name \x7b \x7d\n    .size \x7b width: 100px; text-align: right; color: #a3a3a3; \x7d\n    .modified \x7b width: 180px; text-align: right; color: #a3a3a3; \x7d\n    a \x7b\n      color: var(--accent);\n      text-decoration: none;\n    \x7d\n    a:hover \x7b\n      text-decoration: underline;\n    \x7d\n    .back-link \x7b\n      display: inline-block;\n      margin-bottom: 1rem;\n      color: #a3a3a3;\n    \x7d\n    .back-link:hover \x7b\n      color: var(--accent);\n    \x7d\n    @media (max-width: 600px) \x7b\n      body \x7b padding: 1rem; \x7d\n      .size, .modified \x7b display: none; \x7d\n      th.size, th.modified \x7b display: none; \x7d\n    \x7d\n  </style>\n</head>\n<body>\n  <div class=\"container\">\n    <a href=\"/\" class=\"back-link\">&larr; Back to mirrors</a>\n    <h1>Index of "

/-- Page template from after the `<h1>` interpolation up to `${rows}`. -/
def PAGE_C : String := "</h1>\n    <table>\n      <thead>\n        <tr>\n          <th></th>\n          <th>Name</th>\n          <th class=\"size\">Size</th>\n          <th class=\"modified\">Modified</th>\n        </tr>\n      </thead>\n      <tbody>\n        "

/-- Page template after `${rows}`. -/
def PAGE_D : String := "\n      </tbody>\n    </table>\n    <footer style=\"margin-top: 2rem; padding-top: 1rem; border-top: 1px solid var(--border); font-size: 0.8rem; color: #a3a3a3;\">\n      <a href=\"https://github.com/Commit451/mirror\" style=\"color: #a3a3a3;\">See source</a>\n    </footer>\n  </div>\n</body>\n</html>"

/-- Source: `generateHTML(path, directories, files)`. -/
def generateHTML (path : String) (directories : List String)
    (files : List FileEntry) : String :=
  let parentPath : Option String :=
    if path == "/" then none
    else some (String.intercalate "/" ((jsSplit path '/').dropLast.dropLast) ++ "/")
  let safePath := escapeHtml path
  let parentRows :=
    match parentPath with
    | none => ""
    | some pp => PARENT_ROW_A ++ escapeHtml pp ++ PARENT_ROW_B
  let dirRows := String.join (directories.map (fun dir =>
    DIR_ROW_A ++ safePath ++ escapeHtml dir ++ DIR_ROW_B ++ escapeHtml dir ++
      DIR_ROW_C))
  let fileRows := String.join (files.map (fun file =>
    FILE_ROW_A ++ safePath ++ escapeHtml file.name ++ FILE_ROW_B ++
      escapeHtml file.name ++ FILE_ROW_C ++ formatSize file.size ++
      FILE_ROW_D ++ formatDate file.modified ++ FILE_ROW_E))
  let rows := parentRows ++ dirRows ++ fileRows
  PAGE_A ++ safePath ++ PAGE_B ++ safePath ++ PAGE_C ++ rows ++ PAGE_D

/-- Source: `generateDirectoryListing(env, prefix, displayPath)`. -/
def generateDirectoryListing (env : Bucket) (pref displayPath : String) :
    Response :=
  let listed := env.listing pref
  let directories := listingDirs listed
  let files := listingFiles pref listed.objects
  let directories := sortLe dirCompareDesc directories
  let files := sortLe fileCompareDesc files
  let html := generateHTML displayPath directories files
  { status := 200,
    headers := [("Content-Type", "text/html; charset=utf-8"),
                ("Cache-Control", "public, max-age=31536000")],
    body := some html }

/-! ## The request handler -/

/-- Source: the default export's `fetch(request, env)`.  The request is
modelled by its method, raw URL path and origin. -/
def fetch (env : Bucket) (method rawPath origin : String) : Response :=
  if method ≠ "GET" ∧ method ≠ "HEAD" then
    addSecurityHeaders
      { status := 405, headers := [("Allow", "GET, HEAD")],
        body := some "Method Not Allowed" } false
  else
    -- const isHead = request.method === 'HEAD' (inlined below)
    match sanitizePath rawPath with
    | none =>
      addSecurityHeaders { status := 400, headers := [], body := some "Bad Request" }
        false
    | some path =>
      if SPA_ROUTES.contains path then
        addSecurityHeaders (serveFile env "index.html" "text/html; charset=utf-8" (method == "HEAD"))
          true
      else if testFileExtension path && !jsIncludes path "/gradle/" then
        match serveR2Object env (storeKey path) (getContentType path)
            "public, max-age=31536000, immutable" (method == "HEAD") with
        | some response => addSecurityHeaders response false
        | none =>
          addSecurityHeaders { status := 404, headers := [], body := some "Not Found" }
            false
      else if !jsEndsWith path "/" && !testFileExtension path then
        match serveR2Object env (storeKey path) (getContentType path)
            "public, max-age=86400" (method == "HEAD") with
        | some response => addSecurityHeaders response false
        | none => secureRedirect (origin ++ path ++ "/")
      else if jsEndsWith path "/" then
        addSecurityHeaders (generateDirectoryListing env (dirPref path) path) true
      else
        match serveR2Object env (storeKey path) (getContentType path)
            "public, max-age=86400" (method == "HEAD") with
        | none =>
          addSecurityHeaders { status := 404, headers := [], body := some "Not Found" }
            false
        | some response => addSecurityHeaders response false

/-! ## Header lemmas -/

theorem headerNameEq_iff {a b : String} :
    headerNameEq a b = true ↔ lowerStr a = lowerStr b := by
  simp [headerNameEq]

theorem headerNameEq_false {a b : String} :
    headerNameEq a b = false ↔ lowerStr a ≠ lowerStr b := by
  simp [headerNameEq]

theorem find?_filter_none (hs : List (String × String)) (k : String) :
    List.find? (fun p => headerNameEq p.1 k)
      (hs.filter (fun p => !(headerNameEq p.1 k))) = none := by
  induction hs with
  | nil => rfl
  | cons p hs ih =>
    cases hp : headerNameEq p.1 k with
    | true => simp [List.filter_cons, hp, ih]
    | false => simp [List.filter_cons, hp, ih]

theorem find?_filter_ne (hs : List (String × String)) (k k' : String)
    (h : headerNameEq k' k = false) :
    List.find? (fun p => headerNameEq p.1 k')
      (hs.filter (fun p => !(headerNameEq p.1 k))) =
    List.find? (fun p => headerNameEq p.1 k') hs := by
  induction hs with
  | nil => rfl
  | cons p hs ih =>
    cases hp : headerNameEq p.1 k with
    | true =>
      have hpk : headerNameEq p.1 k' = false := by
        rw [headerNameEq_iff] at hp
        rw [headerNameEq_false] at h ⊢
        intro hq
        exact h (hp ▸ hq ▸ rfl)
      simpa [List.filter_cons, hp, hpk] using ih
    | false =>
      cases hq : headerNameEq p.1 k' with
      | true => simp [List.filter_cons, hp, hq]
      | false => simpa [List.filter_cons, hp, hq] using ih

theorem getHeader_setHeader_self (hs : List (String × String)) (k v : String) :
    getHeader (setHeader hs k v) k = some v := by
  simp [setHeader, getHeader, List.find?_append, find?_filter_none, headerNameEq]

theorem getHeader_setHeader_ne (hs : List (String × String)) (k v k' : String)
    (h : headerNameEq k' k = false) :
    getHeader (setHeader hs k v) k' = getHeader hs k' := by
  have hk : headerNameEq k k' = false := by
    rw [headerNameEq_false] at h ⊢
    exact fun hkk => h hkk.symm
  simp only [setHeader, getHeader, List.find?_append, find?_filter_ne hs k k' h]
  cases List.find? (fun p => headerNameEq p.1 k') hs with
  | some p => rfl
  | none => simp [hk]

theorem addSecurityHeaders_status (r : Response) (b : Bool) :
    (addSecurityHeaders r b).status = r.status := by
  cases b <;> rfl

theorem addSecurityHeaders_body (r : Response) (b : Bool) :
    (addSecurityHeaders r b).body = r.body := by
  cases b <;> rfl

theorem addSecurityHeaders_headers_false (r : Response) :
    (addSecurityHeaders r false).headers =
      setHeader (setHeader (setHeader r.headers
        "X-Content-Type-Options" "nosniff") "X-Frame-Options" "DENY")
        "Referrer-Policy" "no-referrer" := rfl

theorem addSecurityHeaders_headers_true (r : Response) :
    (addSecurityHeaders r true).headers =
      setHeader (setHeader (setHeader (setHeader r.headers
        "X-Content-Type-Options" "nosniff") "X-Frame-Options" "DENY")
        "Referrer-Policy" "no-referrer") "Content-Security-Policy" HTML_CSP := rfl

theorem getHeader_addSecurityHeaders_nosniff (r : Response) (b : Bool) :
    getHeader (addSecurityHeaders r b).headers "X-Content-Type-Options" =
      some "nosniff" := by
  cases b
  · rw [addSecurityHeaders_headers_false,
      getHeader_setHeader_ne _ _ _ _ (by decide),
      getHeader_setHeader_ne _ _ _ _ (by decide), getHeader_setHeader_self]
  · rw [addSecurityHeaders_headers_true,
      getHeader_setHeader_ne _ _ _ _ (by decide),
      getHeader_setHeader_ne _ _ _ _ (by decide),
      getHeader_setHeader_ne _ _ _ _ (by decide), getHeader_setHeader_self]

theorem getHeader_addSecurityHeaders_frame (r : Response) (b : Bool) :
    getHeader (addSecurityHeaders r b).headers "X-Frame-Options" = some "DENY" := by
  cases b
  · rw [addSecurityHeaders_headers_false,
      getHeader_setHeader_ne _ _ _ _ (by decide), getHeader_setHeader_self]
  · rw [addSecurityHeaders_headers_true,
      getHeader_setHeader_ne _ _ _ _ (by decide),
      getHeader_setHeader_ne _ _ _ _ (by decide), getHeader_setHeader_self]

theorem getHeader_addSecurityHeaders_referrer (r : Response) (b : Bool) :
    getHeader (addSecurityHeaders r b).headers "Referrer-Policy" =
      some "no-referrer" := by
  cases b
  · rw [addSecurityHeaders_headers_false, getHeader_setHeader_self]
  · rw [addSecurityHeaders_headers_true,
      getHeader_setHeader_ne _ _ _ _ (by decide), getHeader_setHeader_self]

theorem getHeader_addSecurityHeaders_csp (r : Response) :
    getHeader (addSecurityHeaders r true).headers "Content-Security-Policy" =
      some HTML_CSP := by
  rw [addSecurityHeaders_headers_true, getHeader_setHeader_self]

theorem getHeader_addSecurityHeaders_other (r : Response) (b : Bool) (n : String)
    (h1 : headerNameEq n "X-Content-Type-Options" = false)
    (h2 : headerNameEq n "X-Frame-Options" = false)
    (h3 : headerNameEq n "Referrer-Policy" = false)
    (h4 : headerNameEq n "Content-Security-Policy" = false) :
    getHeader (addSecurityHeaders r b).headers n = getHeader r.headers n := by
  cases b
  · rw [addSecurityHeaders_headers_false, getHeader_setHeader_ne _ _ _ _ h3,
      getHeader_setHeader_ne _ _ _ _ h2, getHeader_setHeader_ne _ _ _ _ h1]
  · rw [addSecurityHeaders_headers_true, getHeader_setHeader_ne _ _ _ _ h4,
      getHeader_setHeader_ne _ _ _ _ h3, getHeader_setHeader_ne _ _ _ _ h2,
      getHeader_setHeader_ne _ _ _ _ h1]

/-- Every response the handler produces goes through
`addSecurityHeaders`. -/
theorem fetch_eq_addSecurityHeaders (env : Bucket) (method rawPath origin : String) :
    ∃ r b, fetch env method rawPath origin = addSecurityHeaders r b := by
  unfold fetch
  split
  · exact ⟨_, _, rfl⟩
  · split
    · exact ⟨_, _, rfl⟩
    · split
      · exact ⟨_, _, rfl⟩
      · split
        · split
          · exact ⟨_, _, rfl⟩
          · exact ⟨_, _, rfl⟩
        · split
          · split
            · exact ⟨_, _, rfl⟩
            · exact ⟨_, false, rfl⟩
          · split
            · exact ⟨_, _, rfl⟩
            · split
              · exact ⟨_, _, rfl⟩
              · exact ⟨_, _, rfl⟩

/-! ## Sorting lemmas -/

theorem charListLe_total : ∀ a b : List Char,
    charListLe a b = true ∨ charListLe b a = true := by
  intro a
  induction a with
  | nil => intro b; left; rfl
  | cons x xs ih =>
    intro b
    cases b with
    | nil => right; rfl
    | cons y ys =>
      simp only [charListLe]
      rcases Nat.lt_trichotomy x.toNat y.toNat with h | h | h
      · left; simp [h]
      · have hxy : ¬ x.toNat < y.toNat := by omega
        have hyx : ¬ y.toNat < x.toNat := by omega
        simpa [hxy, hyx] using ih ys
      · right; simp [h, Nat.lt_asymm h]

theorem charListLe_trans : ∀ a b c : List Char,
    charListLe a b = true → charListLe b c = true → charListLe a c = true := by
  intro a
  induction a with
  | nil => intro b c _ _; rfl
  | cons x xs ih =>
    intro b c hab hbc
    cases b with
    | nil => simp [charListLe] at hab
    | cons y ys =>
      cases c with
      | nil => simp [charListLe] at hbc
      | cons z zs =>
        simp only [charListLe] at hab hbc ⊢
        split_ifs at hab hbc ⊢ <;>
          first
          | rfl
          | omega
          | exact ih ys zs hab hbc

theorem mem_insertLe {α : Type} (le : α → α → Bool) (x a : α) :
    ∀ l : List α, a ∈ insertLe le x l ↔ a = x ∨ a ∈ l := by
  intro l
  induction l with
  | nil => simp [insertLe]
  | cons y ys ih =>
    simp only [insertLe]
    by_cases h : le x y = true
    · simp [h, List.mem_cons]
    · simp [h, List.mem_cons, ih]
      tauto

theorem pairwise_insertLe {α : Type} (le : α → α → Bool)
    (htot : ∀ a b, le a b = true ∨ le b a = true)
    (htrans : ∀ a b c, le a b = true → le b c = true → le a c = true)
    (x : α) :
    ∀ l : List α, l.Pairwise (fun a b => le a b = true) →
      (insertLe le x l).Pairwise (fun a b => le a b = true) := by
  intro l
  induction l with
  | nil => intro _; simp [insertLe]
  | cons y ys ih =>
    intro hp
    obtain ⟨hy, hys⟩ := List.pairwise_cons.mp hp
    by_cases hxy : le x y = true
    · simp only [insertLe, hxy, if_true]
      refine List.pairwise_cons.mpr ⟨?_, hp⟩
      intro b hb
      rcases List.mem_cons.mp hb with rfl | hb
      · exact hxy
      · exact htrans x y b hxy (hy b hb)
    · have hyx : le y x = true := (htot x y).resolve_left hxy
      simp only [insertLe, hxy, if_false]
      refine List.pairwise_cons.mpr ⟨?_, ih hys⟩
      intro b hb
      rcases (mem_insertLe le x b ys).mp hb with rfl | hb
      · exact hyx
      · exact hy b hb

theorem pairwise_sortLe {α : Type} (le : α → α → Bool)
    (htot : ∀ a b, le a b = true ∨ le b a = true)
    (htrans : ∀ a b c, le a b = true → le b c = true → le a c = true)
    (l : List α) :
    (sortLe le l).Pairwise (fun a b => le a b = true) := by
  induction l with
  | nil => exact List.Pairwise.nil
  | cons x l ih => exact pairwise_insertLe le htot htrans x (sortLe le l) ih

theorem dirCompareDesc_total (a b : String) :
    dirCompareDesc a b = true ∨ dirCompareDesc b a = true :=
  charListLe_total _ _

theorem dirCompareDesc_trans (a b c : String)
    (h1 : dirCompareDesc a b = true) (h2 : dirCompareDesc b c = true) :
    dirCompareDesc a c = true :=
  charListLe_trans _ _ _ h2 h1

theorem fileCompareDesc_total (a b : FileEntry) :
    fileCompareDesc a b = true ∨ fileCompareDesc b a = true :=
  charListLe_total _ _

theorem fileCompareDesc_trans (a b c : FileEntry)
    (h1 : fileCompareDesc a b = true) (h2 : fileCompareDesc b c = true) :
    fileCompareDesc a c = true :=
  charListLe_trans _ _ _ h2 h1

/-! ## Routing helper lemmas -/

theorem testFileExtension_eq_false_of_slash (p : String)
    (h : jsEndsWith p "/" = true) : testFileExtension p = false := by
  obtain ⟨rest, hrev⟩ : ∃ rest, p.data.reverse = '/' :: rest := by
    rw [jsEndsWith, List.isSuffixOf] at h
    cases hrev : p.data.reverse with
    | nil => rw [hrev] at h; simp [List.isPrefixOf] at h
    | cons c rest =>
      rw [hrev] at h
      simp only [List.reverse_cons, List.reverse_nil, List.nil_append,
        List.isPrefixOf, Bool.and_true, beq_iff_eq] at h
      exact ⟨rest, by rw [h]⟩
  rw [testFileExtension]
  simp [hrev, List.takeWhile, isAsciiAlphanum]

theorem spa_contains_iff (path : String) :
    SPA_ROUTES.contains path = true ↔ path = "/" ∨ path = "/index.html" := by
  simp [SPA_ROUTES]

/-! ## Claim C1 -/

/-- The spec's description of an unsafe decoded path: a null character, a
backslash, or a `/`-delimited segment exactly equal to `..`. -/
def unsafeDecodedPath (p : String) : Prop :=
  '\x00' ∈ p.data ∨ '\\' ∈ p.data ∨ ".." ∈ jsSplit p '/'

instance (p : String) : Decidable (unsafeDecodedPath p) := by
  unfold unsafeDecodedPath; infer_instance

theorem sanitizePath_some (raw p : String) (h : decodeURIComponent raw = some p) :
    sanitizePath raw =
      if p.data.contains '\x00' || p.data.contains '\\' then none
      else if (jsSplit p '/').any (fun segment => segment == "..") then none
      else some p := by
  simp [sanitizePath, h]

theorem unsafeDecodedPath_iff (p : String) :
    unsafeDecodedPath p ↔
      (p.data.contains '\x00' || p.data.contains '\\') = true ∨
      ((jsSplit p '/').any (fun segment => segment == "..")) = true := by
  simp [unsafeDecodedPath, List.any_eq_true, or_assoc]

/-- C1: the sanitizer rejects a raw path exactly when percent-decoding
fails or the decoded path contains a null character, a backslash or a
`..` segment; on all other inputs it returns the decoded path unchanged;
and on rejection the handler answers 400 with a response that does not
depend on the store (no store operation can influence it). -/
theorem c1_sanitizer_rejects_exactly_bad_paths (raw : String) :
    (sanitizePath raw = none ↔
      decodeURIComponent raw = none ∨
        ∃ p, decodeURIComponent raw = some p ∧ unsafeDecodedPath p) ∧
    (∀ p, decodeURIComponent raw = some p → ¬ unsafeDecodedPath p →
      sanitizePath raw = some p) ∧
    (sanitizePath raw = none → ∀ env env' : Bucket, ∀ method origin : String,
      method = "GET" ∨ method = "HEAD" →
        (fetch env method raw origin).status = 400 ∧
        fetch env method raw origin = fetch env' method raw origin) := by
  have hkeep : ∀ p, decodeURIComponent raw = some p → ¬ unsafeDecodedPath p →
      sanitizePath raw = some p := by
    intro p hdec hbad
    have h1 : (p.data.contains '\x00' || p.data.contains '\\') = false := by
      rcases hb : (p.data.contains '\x00' || p.data.contains '\\') with _ | _
      · rfl
      · exact absurd ((unsafeDecodedPath_iff p).mpr (Or.inl hb)) hbad
    have h2 : ((jsSplit p '/').any (fun segment => segment == "..")) = false := by
      rcases hb : ((jsSplit p '/').any (fun segment => segment == "..")) with _ | _
      · rfl
      · exact absurd ((unsafeDecodedPath_iff p).mpr (Or.inr hb)) hbad
    rw [sanitizePath_some raw p hdec, h1, h2]
    simp
  have hiff : sanitizePath raw = none ↔
      decodeURIComponent raw = none ∨
        ∃ p, decodeURIComponent raw = some p ∧ unsafeDecodedPath p := by
    cases hdec : decodeURIComponent raw with
    | none =>
      apply iff_of_true
      · simp [sanitizePath, hdec]
      · exact Or.inl rfl
    | some p =>
      by_cases hbad : unsafeDecodedPath p
      · apply iff_of_true
        · rw [sanitizePath_some raw p hdec]
          rcases (unsafeDecodedPath_iff p).mp hbad with h1 | h2
          · rw [h1]
            simp
          · rw [h2]
            split <;> simp
        · exact Or.inr ⟨p, rfl, hbad⟩
      · apply iff_of_false
        · rw [hkeep p hdec hbad]
          simp
        · rintro (h | ⟨q, hq, hbadq⟩)
          · exact absurd h (by simp)
          · cases hq
            exact absurd hbadq hbad
  have hreject : sanitizePath raw = none →
      ∀ env env' : Bucket, ∀ method origin : String,
        method = "GET" ∨ method = "HEAD" →
          (fetch env method raw origin).status = 400 ∧
          fetch env method raw origin = fetch env' method raw origin := by
    intro hsan env env' method origin hm
    rcases hm with rfl | rfl <;> simp [fetch, hsan] <;> rfl
  exact ⟨hiff, hkeep, hreject⟩

/-- Witness for C1 at the malformed escape `/%zz` and at the safe path
`/a/b`. -/
theorem c1_witness :
    sanitizePath "/%zz" = none ∧
    (fetch ⟨fun _ => none, fun _ => ⟨[], []⟩⟩ "GET" "/%zz" "").status = 400 ∧
    sanitizePath "/a/b" = some "/a/b" := by
  have h := c1_sanitizer_rejects_exactly_bad_paths "/%zz"
  have hn : sanitizePath "/%zz" = none := h.1.mpr (Or.inl rfl)
  refine ⟨hn, ?_, ?_⟩
  · exact ((h.2.2 hn ⟨fun _ => none, fun _ => ⟨[], []⟩⟩
      ⟨fun _ => none, fun _ => ⟨[], []⟩⟩ "GET" "" (Or.inl rfl))).1
  · exact (c1_sanitizer_rejects_exactly_bad_paths "/a/b").2.1 "/a/b" rfl
      (by decide)

/-! ## Claim C2 -/

/-- C2: a GET or HEAD for a sanitized path with a dotted extension,
outside `/gradle/` and not a shell route, whose derived key misses the
store, gets a terminal 404 with body `Not Found`: no shell document, no
redirect (no `Location` header). -/
theorem c2_asset_miss_terminal_404 (env : Bucket)
    (method raw origin path : String)
    (hm : method = "GET" ∨ method = "HEAD")
    (hs : sanitizePath raw = some path)
    (hext : testFileExtension path = true)
    (hg : jsIncludes path "/gradle/" = false)
    (hspa : SPA_ROUTES.contains path = false)
    (hmiss : env.objects (storeKey path) = none) :
    (fetch env method raw origin).status = 404 ∧
    (fetch env method raw origin).body = some "Not Found" ∧
    getHeader (fetch env method raw origin).headers "Location" = none := by
  have hspa2 : path ∉ SPA_ROUTES := by simpa using hspa
  rcases hm with rfl | rfl <;>
    simp [fetch, hs, hspa2, hext, hg, serveR2Object, hmiss] <;>
    decide

/-- Witness for C2: `GET /missing.js` against an empty bucket. -/
theorem c2_witness :
    (fetch ⟨fun _ => none, fun _ => ⟨[], []⟩⟩ "GET" "/missing.js" "").status = 404 ∧
    (fetch ⟨fun _ => none, fun _ => ⟨[], []⟩⟩ "GET" "/missing.js" "").body =
      some "Not Found" ∧
    getHeader (fetch ⟨fun _ => none, fun _ => ⟨[], []⟩⟩ "GET" "/missing.js" "").headers
      "Location" = none :=
  c2_asset_miss_terminal_404 ⟨fun _ => none, fun _ => ⟨[], []⟩⟩
    "GET" "/missing.js" "" "/missing.js" (Or.inl rfl) (by decide) (by decide)
    (by decide) (by decide) rfl

/-! ## Claim C3 -/

/-- C3: every response the handler produces — 400, 404, 405, the 301
redirect, and every success — carries the three security headers. -/
theorem c3_security_headers_on_every_response (env : Bucket)
    (method raw origin : String) :
    getHeader (fetch env method raw origin).headers "X-Content-Type-Options" =
      some "nosniff" ∧
    getHeader (fetch env method raw origin).headers "X-Frame-Options" =
      some "DENY" ∧
    getHeader (fetch env method raw origin).headers "Referrer-Policy" =
      some "no-referrer" := by
  obtain ⟨r, b, hr⟩ := fetch_eq_addSecurityHeaders env method raw origin
  rw [hr]
  exact ⟨getHeader_addSecurityHeaders_nosniff r b,
    getHeader_addSecurityHeaders_frame r b,
    getHeader_addSecurityHeaders_referrer r b⟩

/-! ## Claim C4 -/

theorem secureRedirect_fields (url : String) :
    (secureRedirect url).status = 301 ∧
    getHeader (secureRedirect url).headers "Location" = some url ∧
    (secureRedirect url).body = none := by
  refine ⟨rfl, ?_, rfl⟩
  rw [secureRedirect, getHeader_addSecurityHeaders_other _ _ _
    (by decide) (by decide) (by decide) (by decide)]
  simp [getHeader, headerNameEq]

/-- C4: a sanitized path with no trailing separator and no dotted
extension is probed at its derived key: a hit is served with status 200, a
miss gets a 301 redirect to the same path with a trailing separator
appended (absolutized with the request origin). -/
theorem c4_ambiguous_path_file_or_redirect (env : Bucket)
    (method raw origin path : String)
    (hm : method = "GET" ∨ method = "HEAD")
    (hs : sanitizePath raw = some path)
    (hend : jsEndsWith path "/" = false)
    (hext : testFileExtension path = false) :
    (∀ o, env.objects (storeKey path) = some o →
      (fetch env method raw origin).status = 200) ∧
    (env.objects (storeKey path) = none →
      (fetch env method raw origin).status = 301 ∧
      getHeader (fetch env method raw origin).headers "Location" =
        some (origin ++ path ++ "/") ∧
      (fetch env method raw origin).body = none) := by
  have hspa2 : path ∉ SPA_ROUTES := by
    intro hmem
    simp only [SPA_ROUTES, List.mem_cons, List.mem_singleton,
      List.not_mem_nil, or_false] at hmem
    rcases hmem with rfl | rfl
    · exact absurd hend (by decide)
    · exact absurd hext (by decide)
  constructor
  · intro o ho
    rcases hm with rfl | rfl <;>
      simp [fetch, hs, hspa2, hext, hend, serveR2Object, ho,
        addSecurityHeaders_status]
  · intro hmiss
    have hfe : fetch env method raw origin =
        secureRedirect (origin ++ path ++ "/") := by
      rcases hm with rfl | rfl <;>
        simp [fetch, hs, hspa2, hext, hend, serveR2Object, hmiss]
    rw [hfe]
    exact secureRedirect_fields (origin ++ path ++ "/")

/-- Witness for C4: `GET /foo/bar` against an empty bucket redirects to
`/foo/bar/`. -/
theorem c4_witness :
    (fetch ⟨fun _ => none, fun _ => ⟨[], []⟩⟩ "GET" "/foo/bar" "http://m").status =
      301 ∧
    getHeader (fetch ⟨fun _ => none, fun _ => ⟨[], []⟩⟩
      "GET" "/foo/bar" "http://m").headers "Location" = some "http://m/foo/bar/" ∧
    (fetch ⟨fun _ => none, fun _ => ⟨[], []⟩⟩ "GET" "/foo/bar" "http://m").body =
      none :=
  (c4_ambiguous_path_file_or_redirect ⟨fun _ => none, fun _ => ⟨[], []⟩⟩
    "GET" "/foo/bar" "http://m" "/foo/bar" (Or.inl rfl) (by decide) (by decide)
    (by decide)).2 rfl

/-! ## Claim C10 -/

/-- C10: a validated trailing-separator path (other than the shell
routes) always yields a 200 HTML listing on GET — the body is the rendered
listing page for whatever the store's listing call returned, so in
particular an empty listing still renders a page (with only the parent
link) rather than a 404. -/
theorem c10_trailing_slash_always_lists (env : Bucket)
    (raw origin path : String)
    (hs : sanitizePath raw = some path)
    (hend : jsEndsWith path "/" = true)
    (hspa : SPA_ROUTES.contains path = false) :
    (fetch env "GET" raw origin).status = 200 ∧
    getHeader (fetch env "GET" raw origin).headers "Content-Type" =
      some "text/html; charset=utf-8" ∧
    (fetch env "GET" raw origin).body =
      some (generateHTML path
        (sortLe dirCompareDesc (listingDirs (env.listing (dirPref path))))
        (sortLe fileCompareDesc
          (listingFiles (dirPref path) (env.listing (dirPref path)).objects))) := by
  have hext := testFileExtension_eq_false_of_slash path hend
  have hspa2 : path ∉ SPA_ROUTES := by simpa using hspa
  have hfe : fetch env "GET" raw origin =
      addSecurityHeaders (generateDirectoryListing env (dirPref path) path) true := by
    simp [fetch, hs, hspa2, hext, hend]
  rw [hfe]
  refine ⟨rfl, ?_, rfl⟩
  rw [getHeader_addSecurityHeaders_other _ _ _
    (by decide) (by decide) (by decide) (by decide)]
  simp [generateDirectoryListing, getHeader, headerNameEq]

/-- Witness for C10: `GET /gradle/` against a bucket whose listing is
empty still produces the 200 listing page. -/
theorem c10_witness :
    (fetch ⟨fun _ => none, fun _ => ⟨[], []⟩⟩ "GET" "/gradle/" "").status = 200 ∧
    getHeader (fetch ⟨fun _ => none, fun _ => ⟨[], []⟩⟩
      "GET" "/gradle/" "").headers "Content-Type" =
      some "text/html; charset=utf-8" ∧
    (fetch ⟨fun _ => none, fun _ => ⟨[], []⟩⟩ "GET" "/gradle/" "").body =
      some (generateHTML "/gradle/" [] []) :=
  c10_trailing_slash_always_lists ⟨fun _ => none, fun _ => ⟨[], []⟩⟩
    "/gradle/" "" "/gradle/" (by decide) (by decide) (by decide)

/-! ## Claim C5 -/

theorem data_of_endsWith_slash (s : String) (h : jsEndsWith s "/" = true) :
    ∃ t, s.data = t ++ ['/'] := by
  obtain ⟨rest, hrev⟩ : ∃ rest, s.data.reverse = '/' :: rest := by
    rw [jsEndsWith, List.isSuffixOf] at h
    cases hrev : s.data.reverse with
    | nil => rw [hrev] at h; simp [List.isPrefixOf] at h
    | cons c rest =>
      rw [hrev] at h
      simp only [List.reverse_cons, List.reverse_nil, List.nil_append,
        List.isPrefixOf, Bool.and_true, beq_iff_eq] at h
      exact ⟨rest, by rw [h]⟩
  refine ⟨rest.reverse, ?_⟩
  calc s.data = s.data.reverse.reverse := (List.reverse_reverse _).symm
    _ = ('/' :: rest).reverse := by rw [hrev]
    _ = rest.reverse ++ ['/'] := by simp

/-- The bucket of the C5 scenario: listing `gradle/7.6/` returns the
single common prefix `gradle/7.6/wrapper/` and no objects. -/
def c5Bucket : Bucket :=
  ⟨fun _ => none,
   fun p => if p = "gradle/7.6/" then ⟨["gradle/7.6/wrapper/"], []⟩ else ⟨[], []⟩⟩

set_option maxRecDepth 8000 in
/-- C5 counterexample: for queried prefix `gradle/7.6/` and common prefix
`gradle/7.6/wrapper/` the worker renders the directory entry `wrapper/`
(the trailing separator is NOT stripped), not `wrapper`: the rendered page
contains the link text `wrapper/` and no bare link text `wrapper`. -/
theorem c5_counterexample :
    dirNameOf "gradle/7.6/wrapper/" = "wrapper/" ∧
    sortLe dirCompareDesc
      (listingDirs ⟨["gradle/7.6/wrapper/"], []⟩) = ["wrapper/"] ∧
    ("wrapper/" : String) ≠ "wrapper" ∧
    jsIncludes ((fetch c5Bucket "GET" "/gradle/7.6/" "").body.getD "")
      ">wrapper/</a>" = true ∧
    jsIncludes ((fetch c5Bucket "GET" "/gradle/7.6/" "").body.getD "")
      ">wrapper</a>" = false := by
  decide

/-- C5 amended: a child directory name is the common-prefix entry with the
queried prefix stripped but the trailing separator KEPT: for a queried
prefix that is empty or ends with the separator and a nonempty child
segment containing no separator, the rendered name is `segment ++ "/"`. -/
theorem c5_amended_dir_name (pref seg : String)
    (hp : pref = "" ∨ jsEndsWith pref "/" = true)
    (_hseg1 : seg.data ≠ [])
    (hseg2 : '/' ∉ seg.data) :
    dirNameOf (pref ++ seg ++ "/") = seg ++ "/" := by
  have hnone : List.findIdx? (fun c => c == '/') seg.data.reverse = none := by
    rw [List.findIdx?_eq_none_iff]
    intro x hx
    rw [List.mem_reverse] at hx
    simp only [beq_eq_false_iff_ne, ne_eq]
    intro hx2
    exact hseg2 (hx2 ▸ hx)
  have hdata : (pref ++ seg ++ "/").data = pref.data ++ (seg.data ++ ['/']) := by
    rw [String.data_append, String.data_append, List.append_assoc]
  have htail : (seg ++ "/").data = seg.data ++ ['/'] := by
    rw [String.data_append]
  rcases hp with rfl | hp
  · have hdata0 : (("" ++ seg ++ "/")).data = seg.data ++ ['/'] := by
      rw [hdata]; rfl
    apply String.ext
    show (("" ++ seg ++ "/").data).drop
        (lastSlashEnd ("" ++ seg ++ "/").data.dropLast) = (seg ++ "/").data
    rw [hdata0, htail, List.dropLast_concat, lastSlashEnd, hnone]
    simp
  · obtain ⟨q, hq⟩ := data_of_endsWith_slash pref hp
    have hrevexpr : (pref.data ++ seg.data).reverse =
        seg.data.reverse ++ ('/' :: q.reverse) := by
      rw [hq]
      simp
    have hidx : lastSlashEnd (pref.data ++ seg.data) = pref.data.length := by
      rw [lastSlashEnd, hrevexpr, List.findIdx?_append, hnone, Option.none_or,
        List.findIdx?_cons]
      simp [hq, List.length_append, List.length_reverse]
      omega
    apply String.ext
    show ((pref ++ seg ++ "/").data).drop
        (lastSlashEnd (pref ++ seg ++ "/").data.dropLast) = (seg ++ "/").data
    rw [hdata, htail, ← List.append_assoc, List.dropLast_concat, hidx,
      List.append_assoc, List.drop_left]

/-- Witness for the amended C5 at the spec's own example. -/
theorem c5_amended_witness :
    dirNameOf ("gradle/7.6/" ++ "wrapper" ++ "/") = "wrapper" ++ "/" :=
  c5_amended_dir_name "gradle/7.6/" "wrapper" (Or.inr (by decide)) (by decide)
    (by decide)

/-! ## Claim C6 -/

/-- C6: in every rendered directory listing, the directory entries and
the file entries are each sorted in descending order under
case-insensitive comparison (any adjacent — indeed any ordered — pair
`a` before `b` satisfies `lower b ≤ lower a`), and the rendered body is
exactly the page generated from those two sorted sequences. -/
theorem c6_listing_sorted_descending (env : Bucket) (pref displayPath : String) :
    (generateDirectoryListing env pref displayPath).body =
      some (generateHTML displayPath
        (sortLe dirCompareDesc (listingDirs (env.listing pref)))
        (sortLe fileCompareDesc (listingFiles pref (env.listing pref).objects))) ∧
    (sortLe dirCompareDesc (listingDirs (env.listing pref))).Pairwise
      (fun a b => charListLe (lowerStr b).data (lowerStr a).data = true) ∧
    (sortLe fileCompareDesc (listingFiles pref (env.listing pref).objects)).Pairwise
      (fun a b => charListLe (lowerStr b.name).data (lowerStr a.name).data = true) := by
  refine ⟨rfl, ?_, ?_⟩
  · exact pairwise_sortLe dirCompareDesc dirCompareDesc_total dirCompareDesc_trans _
  · exact pairwise_sortLe fileCompareDesc fileCompareDesc_total fileCompareDesc_trans _

/-! ## Claim C7 -/

/-- A store object with an `.html` key, for the C7 scenario. -/
def c7PageObj : R2ObjectInfo :=
  ⟨"page.html", 15, "W/\"e7\"", "2024-05-06T07:08:09.123Z", "<html>hi</html>"⟩

/-- The bucket of the C7 scenario: one HTML asset at `page.html`. -/
def c7Bucket : Bucket :=
  ⟨fun k => if k = "page.html" then some c7PageObj else none, fun _ => ⟨[], []⟩⟩

/-- C7 counterexample: `GET /page.html` serves an HTML body (Content-Type
`text/html`) from the store through the asset branch, but the response
carries NO `Content-Security-Policy` header — the CSP is only attached in
the shell and directory-listing branches. -/
theorem c7_counterexample :
    getHeader (fetch c7Bucket "GET" "/page.html" "").headers "Content-Type" =
      some "text/html; charset=utf-8" ∧
    (fetch c7Bucket "GET" "/page.html" "").status = 200 ∧
    (fetch c7Bucket "GET" "/page.html" "").body = some "<html>hi</html>" ∧
    getHeader (fetch c7Bucket "GET" "/page.html" "").headers
      "Content-Security-Policy" = none := by
  decide

/-- C7 amended: the responses generated as HTML pages — the shell-route
branch and the directory-listing branch — always carry the restrictive
CSP header; store-served files, even with `text/html` content type, do
not pass through the CSP-attaching call. -/
theorem c7_amended_csp_on_generated_html (env : Bucket)
    (method raw origin path : String)
    (hm : method = "GET" ∨ method = "HEAD")
    (hs : sanitizePath raw = some path)
    (hroute : SPA_ROUTES.contains path = true ∨ jsEndsWith path "/" = true) :
    getHeader (fetch env method raw origin).headers "Content-Security-Policy" =
      some HTML_CSP := by
  have hex : ∃ r, fetch env method raw origin = addSecurityHeaders r true := by
    rcases hroute with hspa | hend
    · have hmem : path ∈ SPA_ROUTES := by simpa using hspa
      rcases hm with rfl | rfl
      · exact ⟨serveFile env "index.html" "text/html; charset=utf-8" false,
          by simp [fetch, hs, hmem]⟩
      · exact ⟨serveFile env "index.html" "text/html; charset=utf-8" true,
          by simp [fetch, hs, hmem]⟩
    · by_cases hmem : path ∈ SPA_ROUTES
      · rcases hm with rfl | rfl
        · exact ⟨serveFile env "index.html" "text/html; charset=utf-8" false,
            by simp [fetch, hs, hmem]⟩
        · exact ⟨serveFile env "index.html" "text/html; charset=utf-8" true,
            by simp [fetch, hs, hmem]⟩
      · have hext := testFileExtension_eq_false_of_slash path hend
        rcases hm with rfl | rfl <;>
          exact ⟨generateDirectoryListing env (dirPref path) path,
            by simp [fetch, hs, hmem, hext, hend]⟩
  obtain ⟨r, hr⟩ := hex
  rw [hr]
  exact getHeader_addSecurityHeaders_csp r

/-- Witness for the amended C7: the shell route `/` and a listing route
`/gradle/` both carry the CSP. -/
theorem c7_amended_witness :
    getHeader (fetch c7Bucket "GET" "/" "").headers "Content-Security-Policy" =
      some HTML_CSP ∧
    getHeader (fetch c7Bucket "GET" "/gradle/" "").headers
      "Content-Security-Policy" = some HTML_CSP :=
  ⟨c7_amended_csp_on_generated_html c7Bucket "GET" "/" "" "/" (Or.inl rfl)
    (by decide) (Or.inl (by decide)),
   c7_amended_csp_on_generated_html c7Bucket "GET" "/gradle/" "" "/gradle/"
    (Or.inl rfl) (by decide) (Or.inr (by decide))⟩

/-! ## Claim C8 -/

/-- A store object whose key begins with the separator, reachable through
a double-slash request path. -/
def c8Obj : R2ObjectInfo :=
  ⟨"/secret", 3, "W/\"e8\"", "2024-01-02T03:04:05.000Z", "abc"⟩

/-- The bucket of the C8 scenario. -/
def c8Bucket : Bucket :=
  ⟨fun k => if k = "/secret" then some c8Obj else none, fun _ => ⟨[], []⟩⟩

/-- C8 counterexample: the validated path `//secret` derives the store
key `/secret`, which DOES begin with the path separator — and the handler
really probes the store at that key (it serves the object stored there
with status 200). -/
theorem c8_counterexample :
    sanitizePath "//secret" = some "//secret" ∧
    storeKey "//secret" = "/secret" ∧
    jsStartsWith (storeKey "//secret") "/" = true ∧
    (fetch c8Bucket "GET" "//secret" "").status = 200 ∧
    (fetch c8Bucket "GET" "//secret" "").body = some "abc" := by
  decide

/-- C8 amended: every key (and listing prefix) is the path with a single
leading separator stripped; it is free of a leading separator exactly for
paths that begin with one separator and not two — a doubled leading
separator survives into the key. -/
theorem c8_amended_key_derivation (path : String)
    (h1 : jsStartsWith path "/" = true)
    (h2 : jsStartsWith path "//" = false) :
    storeKey path = jsDrop1 path ∧
    jsStartsWith (storeKey path) "/" = false ∧
    jsStartsWith (dirPref path) "/" = false := by
  obtain ⟨t, ht⟩ : ∃ t, path.data = '/' :: t := by
    rw [jsStartsWith] at h1
    cases hd : path.data with
    | nil => rw [hd] at h1; simp [List.isPrefixOf] at h1
    | cons c rest =>
      rw [hd] at h1
      simp only [List.isPrefixOf, Bool.and_true, beq_iff_eq] at h1
      exact ⟨rest, by rw [h1]⟩
  have ht2 : List.isPrefixOf ['/'] t = false := by
    rw [jsStartsWith, ht] at h2
    simpa [List.isPrefixOf] using h2
  have hkey : storeKey path = jsDrop1 path := by simp [storeKey, h1]
  have hdropEq : (jsDrop1 path).data = t := by
    show path.data.drop 1 = t
    rw [ht]
    rfl
  refine ⟨hkey, ?_, ?_⟩
  · rw [hkey, jsStartsWith, hdropEq, ht2]
  · rw [dirPref]
    by_cases hp : path = "/"
    · simp only [hp]
      decide
    · have hp2 : (path == "/") = false := by simpa using hp
      rw [hp2]
      simp only [Bool.false_eq_true, if_false]
      rw [jsStartsWith, hdropEq, ht2]

/-- Witness for the amended C8 at the single-separator path `/a`. -/
theorem c8_amended_witness :
    storeKey "/a" = jsDrop1 "/a" ∧
    jsStartsWith (storeKey "/a") "/" = false ∧
    jsStartsWith (dirPref "/a") "/" = false :=
  c8_amended_key_derivation "/a" (by decide) (by decide)

/-! ## Claim C9 -/

theorem getHeader_cons (p : String × String) (hs : List (String × String))
    (n : String) :
    getHeader (p :: hs) n =
      if headerNameEq p.1 n = true then some p.2 else getHeader hs n := by
  rw [getHeader, List.find?_cons]
  cases h : headerNameEq p.1 n <;> simp [h, getHeader]

/-- The headers of a secured `serveR2Object` success: all four
file-metadata headers survive `addSecurityHeaders`. -/
theorem served_headers (r : Response) (ct cl et cc : String) (bd : Option String)
    (hr : r = addSecurityHeaders
      { status := 200,
        headers := [("Content-Type", ct), ("Content-Length", cl),
                    ("ETag", et), ("Cache-Control", cc)],
        body := bd } false) :
    r.status = 200 ∧
    getHeader r.headers "Content-Type" = some ct ∧
    getHeader r.headers "Content-Length" = some cl ∧
    getHeader r.headers "ETag" = some et ∧
    getHeader r.headers "Cache-Control" = some cc := by
  subst hr
  refine ⟨rfl, ?_, ?_, ?_, ?_⟩ <;>
    rw [getHeader_addSecurityHeaders_other _ _ _
      (by decide) (by decide) (by decide) (by decide)] <;>
    simp +decide [getHeader_cons]

/-- The shell object for the C9 scenario. -/
def c9IndexObj : R2ObjectInfo :=
  ⟨"index.html", 5, "W/\"e9\"", "2024-01-02T03:04:05.000Z", "SHELL"⟩

/-- The bucket of the C9 scenario: only the shell document. -/
def c9Bucket : Bucket :=
  ⟨fun k => if k = "index.html" then some c9IndexObj else none, fun _ => ⟨[], []⟩⟩

/-- C9 counterexample: a successful `GET /` serves the shell object's
body, but the response carries neither an `ETag` nor a `Content-Length`
header — the shell branch (`serveFile`) omits them. -/
theorem c9_counterexample :
    (fetch c9Bucket "GET" "/" "").status = 200 ∧
    (fetch c9Bucket "GET" "/" "").body = some "SHELL" ∧
    getHeader (fetch c9Bucket "GET" "/" "").headers "ETag" = none ∧
    getHeader (fetch c9Bucket "GET" "/" "").headers "Content-Length" = none := by
  decide

/-- C9 amended: successful responses of the asset and file branches (all
three `serveR2Object` call sites, GET and HEAD alike) carry Content-Type,
Content-Length, ETag and Cache-Control; only the shell branch omits
ETag (and, on GET, Content-Length). -/
theorem c9_amended_file_headers (env : Bucket)
    (method raw origin path : String) (o : R2ObjectInfo)
    (hm : method = "GET" ∨ method = "HEAD")
    (hs : sanitizePath raw = some path)
    (hspa : SPA_ROUTES.contains path = false)
    (hend : jsEndsWith path "/" = false)
    (ho : env.objects (storeKey path) = some o) :
    (fetch env method raw origin).status = 200 ∧
    getHeader (fetch env method raw origin).headers "Content-Type" =
      some (getContentType path) ∧
    getHeader (fetch env method raw origin).headers "Content-Length" =
      some (toString o.size) ∧
    getHeader (fetch env method raw origin).headers "ETag" = some o.etag ∧
    (getHeader (fetch env method raw origin).headers "Cache-Control" =
        some "public, max-age=31536000, immutable" ∨
      getHeader (fetch env method raw origin).headers "Cache-Control" =
        some "public, max-age=86400") := by
  have hspa2 : path ∉ SPA_ROUTES := by simpa using hspa
  by_cases hA : (testFileExtension path && !jsIncludes path "/gradle/") = true
  · -- asset branch, long-lived immutable caching
    have h : ∀ bd, (fetch env method raw origin = addSecurityHeaders
        { status := 200,
          headers := [("Content-Type", getContentType path),
                      ("Content-Length", toString o.size),
                      ("ETag", o.etag),
                      ("Cache-Control", "public, max-age=31536000, immutable")],
          body := bd } false) →
        (fetch env method raw origin).status = 200 ∧
        getHeader (fetch env method raw origin).headers "Content-Type" =
          some (getContentType path) ∧
        getHeader (fetch env method raw origin).headers "Content-Length" =
          some (toString o.size) ∧
        getHeader (fetch env method raw origin).headers "ETag" = some o.etag ∧
        (getHeader (fetch env method raw origin).headers "Cache-Control" =
            some "public, max-age=31536000, immutable" ∨
          getHeader (fetch env method raw origin).headers "Cache-Control" =
            some "public, max-age=86400") := by
      intro bd hfe
      obtain ⟨a, b, c, d, e⟩ := served_headers _ _ _ _ _ _ hfe
      exact ⟨a, b, c, d, Or.inl e⟩
    rcases hm with rfl | rfl
    · exact h (some o.body) (by simp [fetch, hs, hspa2, hA, serveR2Object, ho])
    · exact h none (by simp [fetch, hs, hspa2, hA, serveR2Object, ho])
  · -- file branch (either the extensionless probe or the final download)
    have hA' : (testFileExtension path && !jsIncludes path "/gradle/") = false := by
      rwa [Bool.not_eq_true] at hA
    have h : ∀ bd, (fetch env method raw origin = addSecurityHeaders
        { status := 200,
          headers := [("Content-Type", getContentType path),
                      ("Content-Length", toString o.size),
                      ("ETag", o.etag),
                      ("Cache-Control", "public, max-age=86400")],
          body := bd } false) →
        (fetch env method raw origin).status = 200 ∧
        getHeader (fetch env method raw origin).headers "Content-Type" =
          some (getContentType path) ∧
        getHeader (fetch env method raw origin).headers "Content-Length" =
          some (toString o.size) ∧
        getHeader (fetch env method raw origin).headers "ETag" = some o.etag ∧
        (getHeader (fetch env method raw origin).headers "Cache-Control" =
            some "public, max-age=31536000, immutable" ∨
          getHeader (fetch env method raw origin).headers "Cache-Control" =
            some "public, max-age=86400") := by
      intro bd hfe
      obtain ⟨a, b, c, d, e⟩ := served_headers _ _ _ _ _ _ hfe
      exact ⟨a, b, c, d, Or.inr e⟩
    by_cases hext : testFileExtension path = true
    · -- dotted extension inside /gradle/: the final download branch
      have hg : jsIncludes path "/gradle/" = true := by
        rw [hext] at hA'
        simpa using hA'
      rcases hm with rfl | rfl
      · exact h (some o.body)
          (by simp [fetch, hs, hspa2, hg, hext, hend, serveR2Object, ho])
      · exact h none
          (by simp [fetch, hs, hspa2, hg, hext, hend, serveR2Object, ho])
    · -- no extension: the ambiguous file-or-directory probe
      have hext' : testFileExtension path = false := by
        rwa [Bool.not_eq_true] at hext
      rcases hm with rfl | rfl
      · exact h (some o.body)
          (by simp [fetch, hs, hspa2, hA', hext', hend, serveR2Object, ho])
      · exact h none
          (by simp [fetch, hs, hspa2, hA', hext', hend, serveR2Object, ho])

/-- Witness for the amended C9: `GET /gradle/doc.txt` with the object
present carries all four headers. -/
theorem c9_amended_witness :
    (fetch ⟨fun k => if k = "gradle/doc.txt" then
        some ⟨"gradle/doc.txt", 4, "W/\"w9\"", "2024-01-02T03:04:05.000Z", "text"⟩
      else none, fun _ => ⟨[], []⟩⟩ "GET" "/gradle/doc.txt" "").status = 200 ∧
    getHeader (fetch ⟨fun k => if k = "gradle/doc.txt" then
        some ⟨"gradle/doc.txt", 4, "W/\"w9\"", "2024-01-02T03:04:05.000Z", "text"⟩
      else none, fun _ => ⟨[], []⟩⟩ "GET" "/gradle/doc.txt" "").headers
      "Content-Type" = some (getContentType "/gradle/doc.txt") ∧
    getHeader (fetch ⟨fun k => if k = "gradle/doc.txt" then
        some ⟨"gradle/doc.txt", 4, "W/\"w9\"", "2024-01-02T03:04:05.000Z", "text"⟩
      else none, fun _ => ⟨[], []⟩⟩ "GET" "/gradle/doc.txt" "").headers
      "Content-Length" = some (toString (4 : Nat)) ∧
    getHeader (fetch ⟨fun k => if k = "gradle/doc.txt" then
        some ⟨"gradle/doc.txt", 4, "W/\"w9\"", "2024-01-02T03:04:05.000Z", "text"⟩
      else none, fun _ => ⟨[], []⟩⟩ "GET" "/gradle/doc.txt" "").headers
      "ETag" = some "W/\"w9\"" ∧
    (getHeader (fetch ⟨fun k => if k = "gradle/doc.txt" then
        some ⟨"gradle/doc.txt", 4, "W/\"w9\"", "2024-01-02T03:04:05.000Z", "text"⟩
      else none, fun _ => ⟨[], []⟩⟩ "GET" "/gradle/doc.txt" "").headers
      "Cache-Control" = some "public, max-age=31536000, immutable" ∨
     getHeader (fetch ⟨fun k => if k = "gradle/doc.txt" then
        some ⟨"gradle/doc.txt", 4, "W/\"w9\"", "2024-01-02T03:04:05.000Z", "text"⟩
      else none, fun _ => ⟨[], []⟩⟩ "GET" "/gradle/doc.txt" "").headers
      "Cache-Control" = some "public, max-age=86400") :=
  c9_amended_file_headers _ "GET" "/gradle/doc.txt" "" "/gradle/doc.txt"
    ⟨"gradle/doc.txt", 4, "W/\"w9\"", "2024-01-02T03:04:05.000Z", "text"⟩
    (Or.inl rfl) (by decide) (by decide) (by decide) (by decide)

end Mirror
